import Mathlib

/-!
Shallow embedding of the `django-celery-commands` repository, covering:

* `management/commands/celery_tasks.py` — the generic invoker command
  (`Command.run_task`, `Command._cast_value`),
* `management/commands/_dynamic.py` — the per-job dynamic command
  (`DynamicCeleryCommand.handle`, `_slugify_command_name`, `register_command`),
* `discover.py` — signature introspection (`parse_task_signature`),
* `apps.py` — the startup registration loop (`DjangoCeleryCommandsConfig.ready`).

Python strings are modelled as Lean `String`/`List Char`; Python `None` as an
explicit value or `Option.none` depending on context; raised `CommandError`
exceptions as the `Except` monad, so "the function raises before X happens"
becomes "the function returns `.error e` and no result is produced".
-/

namespace DjCmd

/-- Characters stripped by Python's `str.strip()` (the ASCII whitespace
subset; exotic Unicode space code points do not occur in the claims). -/
def isPySpace (c : Char) : Bool :=
  c == ' ' || c == '\t' || c == '\n' || c == '\r' || c == '\x0b' || c == '\x0c'

/-- Model of Python `str.strip()` on the character list of a string. -/
def pyStrip (cs : List Char) : List Char :=
  ((cs.dropWhile isPySpace).reverse.dropWhile isPySpace).reverse

/-- ASCII lowercase of one character, modelling `str.lower()` on the ASCII
range (the boolean tokens compared against are all ASCII). -/
def lowerChar (c : Char) : Char :=
  if 'A' ≤ c ∧ c ≤ 'Z' then Char.ofNat (c.toNat + 32) else c

/-- Model of Python `str.lower()`. -/
def pyLower (s : String) : String :=
  String.mk (s.data.map lowerChar)

/-- Numeric value of a decimal digit character. -/
def digitVal (c : Char) : Nat :=
  c.toNat - 48

/-- Model of Python `str.split(sep)` for a one-character separator:
auxiliary returning the current chunk and the finished chunks. -/
def splitOnCharAux (sep : Char) : List Char → List Char × List (List Char)
  | [] => ([], [])
  | c :: rest =>
    let r := splitOnCharAux sep rest
    if c = sep then ([], r.1 :: r.2) else (c :: r.1, r.2)

/-- Model of Python `str.split(sep)` for a one-character separator; like the
Python original it returns `[""]` on the empty string and keeps empty chunks. -/
def splitOnChar (sep : Char) (cs : List Char) : List (List Char) :=
  (splitOnCharAux sep cs).1 :: (splitOnCharAux sep cs).2

/-- Model of Python `str.split(sep, 1)` combined with the `sep in s` test:
`none` when the separator does not occur, otherwise the parts before and
after its first occurrence. -/
def splitFirst (sep : Char) : List Char → Option (List Char × List Char)
  | [] => none
  | c :: rest =>
    if c = sep then some ([], rest)
    else (splitFirst sep rest).map (fun p => (c :: p.1, p.2))

/-- Decimal digit run with CPython's underscore rule (an underscore must sit
between two digits): accumulates the value and digit count, returning the
remaining input, or `none` on a misplaced underscore.  Used by the models of
`int(...)` and `float(...)`. -/
def digitGroup : Nat → Nat → List Char → Option (Nat × Nat × List Char)
  | v, n, [] => some (v, n, [])
  | _, _, ['_'] => none
  | v, n, '_' :: c :: cs =>
    if 0 < n ∧ c.isDigit then digitGroup (v * 10 + digitVal c) (n + 1) cs else none
  | v, n, c :: cs =>
    if c.isDigit then digitGroup (v * 10 + digitVal c) (n + 1) cs else some (v, n, c :: cs)

/-- Whole-input digit run for `int(...)`: at least one digit, underscores only
between digits, nothing left over. -/
def pyParseNatAll (cs : List Char) : Option Nat :=
  match digitGroup 0 0 cs with
  | some (v, n, []) => if 0 < n then some v else none
  | _ => none

/-- Model of CPython `int(s)` (base 10 on a string): surrounding whitespace is
stripped, an optional sign precedes the digits, underscores are allowed
between digits; anything else raises `ValueError`, modelled as `none`. -/
def pyIntParse (s : String) : Option Int :=
  match pyStrip s.data with
  | '+' :: r => (pyParseNatAll r).map (fun n => (n : Int))
  | '-' :: r => (pyParseNatAll r).map (fun n => -(n : Int))
  | r => (pyParseNatAll r).map (fun n => (n : Int))

/-- Result of CPython `float(s)`: a finite decimal value (kept exactly as a
rational — IEEE rounding is irrelevant to the verified claims), an infinity,
or a NaN. -/
inductive PyFloat where
  | finite (q : ℚ)
  | inf (neg : Bool)
  | nan
  deriving DecidableEq

/-- Powers of ten, kernel-reducible. -/
def pow10 : Nat → Nat
  | 0 => 1
  | n + 1 => 10 * pow10 n

/-- Exact decimal value `(ip·10^fpn + fp) / 10^fpn · 10^e` of a parsed float
literal with integer part `ip`, fraction digits `fp` (`fpn` of them) and
exponent `e`. -/
def decValue (ip fp fpn : Nat) (e : Int) : ℚ :=
  let m : Int := (ip * pow10 fpn + fp : Nat)
  match e with
  | Int.ofNat k => mkRat (m * (pow10 k : Int)) (pow10 fpn)
  | Int.negSucc k => mkRat m (pow10 fpn * pow10 (k + 1))

/-- Exponent suffix of a float literal: empty, or `e`, an optional sign and a
digit run (input is already lowercased). -/
def expPart : List Char → Option Int
  | [] => some 0
  | 'e' :: rest =>
    let signed : Bool × List Char :=
      match rest with
      | '+' :: r => (false, r)
      | '-' :: r => (true, r)
      | r => (false, r)
    match digitGroup 0 0 signed.2 with
    | some (v, n, []) => if 0 < n then some (if signed.1 then -(v : Int) else (v : Int)) else none
    | _ => none
  | _ => none

/-- Body of CPython `float(s)` after stripping, lowercasing and removing the
sign: `inf`/`infinity`/`nan`, or a decimal literal with optional fraction and
exponent. -/
def pyFloatCore (cs : List Char) : Option PyFloat :=
  if cs = ['i', 'n', 'f'] ∨ cs = ['i', 'n', 'f', 'i', 'n', 'i', 't', 'y'] then
    some (.inf false)
  else if cs = ['n', 'a', 'n'] then some .nan
  else
    match digitGroup 0 0 cs with
    | none => none
    | some (ip, ipn, rest) =>
      match rest with
      | '.' :: rest2 =>
        match digitGroup 0 0 rest2 with
        | none => none
        | some (fp, fpn, rest3) =>
          if 0 < ipn + fpn then (expPart rest3).map (fun e => .finite (decValue ip fp fpn e))
          else none
      | _ =>
        if 0 < ipn then (expPart rest).map (fun e => .finite (decValue ip 0 0 e))
        else none

/-- Negation of a parsed float (for a leading minus sign). -/
def negFloat : PyFloat → PyFloat
  | .finite q => .finite (-q)
  | .inf b => .inf (!b)
  | .nan => .nan

/-- Model of CPython `float(s)`: strip whitespace, case-insensitive, optional
sign, then `inf`/`infinity`/`nan` or a decimal literal; `none` models a raised
`ValueError`. -/
def pyFloatParse (s : String) : Option PyFloat :=
  match pyStrip (s.data.map lowerChar) with
  | '+' :: r => pyFloatCore r
  | '-' :: r => (pyFloatCore r).map negFloat
  | r => pyFloatCore r

/-- Declared parameter types as far as `_cast_value` distinguishes them:
`str`, `int`, `float`, `bool`, `List[T]` (origin `list` with one type
argument), bare `list` (no type argument), or any other/unrecognized
annotation (identified by its display name only). -/
inductive PyType where
  | str
  | int
  | float
  | bool
  | listOf (t : PyType)
  | bareList
  | other (n : String)
  deriving DecidableEq

/-- Python values produced by the casting logic: `None`, strings, integers,
floats, booleans, lists, and instances of unmodelled classes (`obj`, carrying
the class name and the raw constructor argument). -/
inductive PyValue where
  | pyNone
  | str (s : String)
  | int (n : Int)
  | float (f : PyFloat)
  | bool (b : Bool)
  | list (xs : List PyValue)
  | obj (cls : String) (raw : String)

/-- The `CommandError` variants raised by the two commands, keyed by the data
their messages carry. -/
inductive CmdError where
  | castError (value : String) (target : String)
  | notFound (taskName : String)
  | noRun (taskName : String)
  | badKwargs
  | dynCastError (param : String) (value : String) (target : String)
  deriving DecidableEq

/-- Sequencing of `_cast_value` over the comma-separated elements of a list
annotation: each element is stripped, cast with `f`, and the first raised
error aborts the whole cast (exception semantics). -/
def castElems (f : String → Except CmdError PyValue) :
    List (List Char) → Except CmdError (List PyValue)
  | [] => .ok []
  | i :: rest =>
    match f (String.mk (pyStrip i)), castElems f rest with
    | .ok x, .ok xs => .ok (x :: xs)
    | .error e, _ => .error e
    | _, .error e => .error e

/-- Embedding of `Command._cast_value` for a present (non-`None`) annotation:
`str` is the identity, `int`/`float` parse via the CPython parsers and raise
`CommandError` on failure, `bool` matches the lowercased value against
`["true","1","yes"]` / `["false","0","no"]`, `List[T]` splits on `,`, strips
each element and recurses, and bare `list` or any unrecognized annotation
returns the raw string unchanged. -/
def castValueT : PyType → String → Except CmdError PyValue
  | .str, v => .ok (.str v)
  | .int, v =>
    match pyIntParse v with
    | some n => .ok (.int n)
    | none => .error (.castError v "int")
  | .float, v =>
    match pyFloatParse v with
    | some f => .ok (.float f)
    | none => .error (.castError v "float")
  | .bool, v =>
    if pyLower v ∈ (["true", "1", "yes"] : List String) then .ok (.bool true)
    else if pyLower v ∈ (["false", "0", "no"] : List String) then .ok (.bool false)
    else .error (.castError v "bool")
  | .listOf t, v =>
    Except.map PyValue.list (castElems (fun s => castValueT t s) (splitOnChar ',' v.data))
  | .bareList, v => .ok (.str v)
  | .other _, v => .ok (.str v)
termination_by t _ => sizeOf t

/-- Embedding of `Command._cast_value`: a missing annotation (`None`) returns
the raw string, otherwise the per-type rules of `castValueT` apply. -/
def castValue : Option PyType → String → Except CmdError PyValue
  | none, v => .ok (.str v)
  | some t, v => castValueT t v

/-! ## Signature introspection (`discover.parse_task_signature`) -/

/-- One parameter of a task's `.run` callable as `inspect.signature` and
`get_type_hints` expose it: its name, its type hint (if any), and its declared
default, where `Option.none` models `inspect._empty` (no default declared) and
`some .pyNone` models an explicit `None` default. -/
structure SigParam where
  name : String
  hint : Option PyType
  default : Option PyValue

/-- One entry of `parse_task_signature`'s `params_info` list. -/
structure ParamInfo where
  name : String
  annot : Option PyType
  default : PyValue
  required : Bool

/-- A Celery task object as this system sees it: its dotted registry name,
its function's `__name__`, whether it has a `.run` attribute, the signature of
`.run`, and the docstring. -/
structure TaskObj where
  name : String
  funcName : String
  hasRun : Bool
  runParams : List SigParam
  docstring : String

/-- The `task_info` dictionary built by `parse_task_signature`. -/
structure TaskInfo where
  name : String
  funcName : String
  params : List ParamInfo
  docstring : String

/-- Per-parameter body of `parse_task_signature`: the hint is looked up (or
`None`), the default becomes `None` when the signature carries
`inspect._empty`, and `required` is true exactly when the default is
`inspect._empty`. -/
def parseParamInfo (p : SigParam) : ParamInfo :=
  { name := p.name
    annot := p.hint
    default := p.default.getD PyValue.pyNone
    required := p.default.isNone }

/-- Embedding of `discover.parse_task_signature`: maps `parseParamInfo` over
the parameters in declaration order and copies name, function name and
docstring. -/
def parseTaskSignature (t : TaskObj) : TaskInfo :=
  { name := t.name
    funcName := t.funcName
    params := t.runParams.map parseParamInfo
    docstring := t.docstring }

/-! ## The generic invoker (`celery_tasks.Command.run_task`) -/

/-- Python dict lookup on an association-list model of a dict. -/
def lookupAssoc {α : Type} : List (String × α) → String → Option α
  | [], _ => none
  | (k, v) :: rest, n => if k = n then some v else lookupAssoc rest n

/-- Python dict insertion `d[k] = v` on the association-list model: replaces
the binding if the key is present, appends it otherwise. -/
def dictInsert {α : Type} : List (String × α) → String → α → List (String × α)
  | [], k, v => [(k, v)]
  | (k', v') :: rest, k, v =>
    if k' = k then (k, v) :: rest else (k', v') :: dictInsert rest k v

/-- The `task.delay(*final_args, **final_kwargs)` call that `run_task` ends
with: the submitted task name plus the fully cast argument lists. -/
structure Submission where
  taskName : String
  args : List PyValue
  kwargs : List (String × PyValue)

/-- `type_hints.get(param_name, None)` for the invoker: the hint of the
parameter with the given name, if any. -/
def typeHint (t : TaskObj) (k : String) : Option PyType :=
  match t.runParams.find? (fun p => p.name == k) with
  | some p => p.hint
  | none => none

/-- Loop 1 of `run_task`: positional raw strings are matched to parameters by
position and cast with the parameter's hint; extras beyond the parameter list
are appended as raw strings; the first cast error aborts. -/
def castPositional : List SigParam → List String → Except CmdError (List PyValue)
  | _, [] => .ok []
  | [], raw :: rest =>
    match castPositional [] rest with
    | .ok vs => .ok (.str raw :: vs)
    | .error e => .error e
  | p :: ps, raw :: rest =>
    match castValue p.hint raw, castPositional ps rest with
    | .ok v, .ok vs => .ok (v :: vs)
    | .error e, _ => .error e
    | _, .error e => .error e

/-- Loop 2 of `run_task`: each `--kwargs` token must contain `=` (otherwise
`CommandError` about the kwargs format is raised), is split once on the first
`=`, and the value is cast with the hint looked up for the key. -/
def castKwargs (hints : String → Option PyType) :
    List String → Except CmdError (List (String × PyValue))
  | [] => .ok []
  | tok :: rest =>
    match splitFirst '=' tok.data with
    | none => .error .badKwargs
    | some (k, v) =>
      match castValue (hints (String.mk k)) (String.mk v), castKwargs hints rest with
      | .ok cv, .ok kvs => .ok ((String.mk k, cv) :: kvs)
      | .error e, _ => .error e
      | _, .error e => .error e

/-- Embedding of `Command.run_task`: look the task up in the Celery registry
(`CommandError` if absent), require a `.run` attribute (`CommandError`
otherwise), cast positional then keyword arguments, and finally submit via
`task.delay`.  An `.error` result means the exception fired before the
submission. -/
def runTask (registry : List (String × TaskObj)) (taskName : String)
    (argsRaw kwargsRaw : List String) : Except CmdError Submission :=
  match lookupAssoc registry taskName with
  | none => .error (.notFound taskName)
  | some task =>
    if task.hasRun then
      match castPositional task.runParams argsRaw with
      | .error e => .error e
      | .ok fargs =>
        match castKwargs (typeHint task) kwargsRaw with
        | .error e => .error e
        | .ok fkw => .ok ⟨taskName, fargs, fkw⟩
    else .error (.noRun taskName)

/-! ## The dynamic per-job command (`_dynamic.py`) -/

/-- Display name of an annotation, as used in the dynamic command's cast
error message (`f"... to {p_type}"`). -/
def pyTypeName : PyType → String
  | .str => "str"
  | .int => "int"
  | .float => "float"
  | .bool => "bool"
  | .listOf _ => "typing.List"
  | .bareList => "list"
  | .other n => n

/-- Model of the constructor call `p_type(val)` in
`DynamicCeleryCommand.handle` for a string `val`; `none` models a raised
exception.  `int`/`float` call the same CPython parsers as `_cast_value`;
`bool` is CPython truthiness (any nonempty string is `True`, including
`"false"`); calling a `typing.List[...]` alias raises `TypeError`; calling
bare `list` on a string yields its characters; an unrecognized class
constructor is modelled as an opaque instance. -/
def dynCast : PyType → String → Option PyValue
  | .str, s => some (.str s)
  | .int, s => (pyIntParse s).map .int
  | .float, s => (pyFloatParse s).map .float
  | .bool, s => some (.bool (!s.isEmpty))
  | .listOf _, _ => none
  | .bareList, s => some (.list (s.data.map (fun c => .str (String.mk [c]))))
  | .other n, s => some (.obj n s)

/-- One iteration of the loop in `DynamicCeleryCommand.handle` for parameter
`p`: read `options.get(p.name, None)` (the CLI string, or `none` for Python
`None`; defaults other than `None` are not exercised by any claim), skip
casting when the value is `None` or the annotation is missing, otherwise
apply the annotation's constructor, wrapping a raised exception in a
`CommandError` that names the parameter, raw value and target type. -/
def processParam (opts : String → Option String) (p : ParamInfo) :
    Except CmdError (String × Option PyValue) :=
  match opts p.name, p.annot with
  | none, _ => .ok (p.name, none)
  | some s, none => .ok (p.name, some (.str s))
  | some s, some ty =>
    match dynCast ty s with
    | some v => .ok (p.name, some v)
    | none => .error (.dynCastError p.name s (pyTypeName ty))

/-- Embedding of `DynamicCeleryCommand.handle` up to the `task_obj.delay`
call: builds `final_kwargs` with exactly one entry per declared parameter, in
order, propagating the first cast error. -/
def dynamicHandle : List ParamInfo → (String → Option String) →
    Except CmdError (List (String × Option PyValue))
  | [], _ => .ok []
  | p :: ps, opts =>
    match processParam opts p, dynamicHandle ps opts with
    | .ok kv, .ok rest => .ok (kv :: rest)
    | .error e, _ => .error e
    | _, .error e => .error e

/-! ## Registration (`_slugify_command_name`, `register_command`, `apps.ready`) -/

/-- ASCII model of the regex word class `\w` (`[A-Za-z0-9_]`; the dotted
Python names fed to the slugifier are ASCII). -/
def isWordChar (c : Char) : Bool :=
  c.isAlphanum || c == '_'

/-- Run-collapsing core of `re.sub(r'\W+', '_', name)`: the flag records
whether the previous character was part of a non-word run already replaced. -/
def slugAux (prevNonWord : Bool) : List Char → List Char
  | [] => []
  | c :: rest =>
    if isWordChar c then c :: slugAux false rest
    else if prevNonWord then slugAux true rest
    else '_' :: slugAux true rest

/-- Embedding of `_slugify_command_name`: every maximal run of non-word
characters becomes a single underscore. -/
def slugifyCommandName (name : String) : String :=
  String.mk (slugAux false name.data)

/-- Embedding of `register_command`'s effect on the process-wide command
registry: one dict insertion keyed by the slugified `command_name`; the
stored entry is identified by the dotted name of the task the generated
command submits. -/
def registerCommand (reg : List (String × String)) (commandName taskName : String) :
    List (String × String) :=
  dictInsert reg (slugifyCommandName commandName) taskName

/-- Embedding of `DjangoCeleryCommandsConfig.ready`: for every discovered
task, parse its signature and register a dynamic command named after the
task's `func_name` (not its dotted registry name). -/
def readyRegister (tasks : List (String × TaskObj)) : List (String × String) :=
  tasks.foldl
    (fun reg kv => registerCommand reg (parseTaskSignature kv.2).funcName kv.2.name) []

/-- Successful value of an `Except` computation, `none` on an error. -/
def okValue {α : Type} : Except CmdError α → Option α
  | .ok v => some v
  | .error _ => none

/-! ## Helper lemmas -/

theorem exceptBind_ok {α β : Type} (a : α) (f : α → Except CmdError β) :
    (Except.ok a : Except CmdError α) >>= f = f a := rfl

theorem exceptBind_error {α β : Type} (e : CmdError) (f : α → Except CmdError β) :
    (Except.error e : Except CmdError α) >>= f = .error e := rfl

theorem exceptPure {α : Type} (a : α) :
    (pure a : Except CmdError α) = .ok a := rfl

theorem castElems_eq_mapM (f : String → Except CmdError PyValue) (l : List (List Char)) :
    castElems f l = l.mapM (fun i => f (String.mk (pyStrip i))) := by
  induction l with
  | nil => rfl
  | cons i rest ih =>
    rw [List.mapM_cons, ← ih]
    cases hf : f (String.mk (pyStrip i)) with
    | error e => simp only [castElems, hf, exceptBind_error]
    | ok x =>
      cases hr : castElems f rest with
      | error e =>
        simp only [castElems, hf, hr, exceptBind_ok, exceptBind_error]
      | ok xs =>
        simp only [castElems, hf, hr, exceptBind_ok, exceptPure]

theorem lookupAssoc_dictInsert_self {α : Type} (l : List (String × α)) (k : String) (v : α) :
    lookupAssoc (dictInsert l k v) k = some v := by
  induction l with
  | nil => simp [dictInsert, lookupAssoc]
  | cons kv rest ih =>
    obtain ⟨k0, v0⟩ := kv
    by_cases h : k0 = k <;> simp [dictInsert, lookupAssoc, h, ih]

theorem lookupAssoc_dictInsert_other {α : Type} (l : List (String × α)) (k k' : String)
    (v : α) (h : k' ≠ k) : lookupAssoc (dictInsert l k v) k' = lookupAssoc l k' := by
  induction l with
  | nil => simp [dictInsert, lookupAssoc, Ne.symm h]
  | cons kv rest ih =>
    obtain ⟨k0, v0⟩ := kv
    by_cases h1 : k0 = k
    · subst h1
      simp [dictInsert, lookupAssoc, Ne.symm h]
    · simp [dictInsert, lookupAssoc, h1, ih]

theorem length_dictInsert {α : Type} (l : List (String × α)) (k : String) (v : α) :
    (dictInsert l k v).length =
      if (lookupAssoc l k).isSome then l.length else l.length + 1 := by
  induction l with
  | nil => simp [dictInsert, lookupAssoc]
  | cons kv rest ih =>
    obtain ⟨k0, v0⟩ := kv
    by_cases h : k0 = k
    · simp [dictInsert, lookupAssoc, h]
    · rcases hl : lookupAssoc rest k with _ | w <;>
        simp [dictInsert, lookupAssoc, h, ih, hl]

theorem splitFirst_none_iff (sep : Char) (cs : List Char) :
    splitFirst sep cs = none ↔ sep ∉ cs := by
  induction cs with
  | nil => simp [splitFirst]
  | cons c rest ih =>
    by_cases h : c = sep
    · subst h
      simp [splitFirst]
    · cases hr : splitFirst sep rest <;>
        simp_all [splitFirst, Ne.symm h]

theorem splitFirst_spec (sep : Char) (cs k v : List Char)
    (h : splitFirst sep cs = some (k, v)) : cs = k ++ sep :: v ∧ sep ∉ k := by
  induction cs generalizing k v with
  | nil => simp [splitFirst] at h
  | cons c rest ih =>
    by_cases hc : c = sep
    · subst hc
      simp [splitFirst] at h
      obtain ⟨h1, h2⟩ := h
      subst h1
      subst h2
      simp
    · cases hr : splitFirst sep rest with
      | none => simp [splitFirst, hc, hr] at h
      | some p =>
        simp [splitFirst, hc, hr] at h
        obtain ⟨hs, hp⟩ := ih p.1 p.2 (by simp [hr])
        obtain ⟨h1, h2⟩ := h
        subst h1
        subst h2
        constructor
        · simp [hs]
        · simp [List.mem_cons, Ne.symm hc, hp]

theorem castKwargs_error_of_missing_eq (hints : String → Option PyType)
    (ks : List String) (tok : String) (hmem : tok ∈ ks)
    (hbad : splitFirst '=' tok.data = none) :
    ∃ e, castKwargs hints ks = .error e := by
  induction ks with
  | nil => simp at hmem
  | cons t rest ih =>
    rcases List.mem_cons.mp hmem with heq | hmem2
    · subst heq
      exact ⟨.badKwargs, by simp [castKwargs, hbad]⟩
    · cases hs : splitFirst '=' t.data with
      | none => exact ⟨.badKwargs, by simp [castKwargs, hs]⟩
      | some p =>
        obtain ⟨e, he⟩ := ih hmem2
        cases hv : castValue (hints (String.mk p.1)) (String.mk p.2) with
        | error e2 => exact ⟨e2, by simp [castKwargs, hs, hv, he]⟩
        | ok cv => exact ⟨e, by simp [castKwargs, hs, hv, he]⟩

theorem processParam_key (opts : String → Option String) (p : ParamInfo)
    (kv : String × Option PyValue) (h : processParam opts p = .ok kv) :
    kv.1 = p.name := by
  cases ho : opts p.name with
  | none =>
    simp [processParam, ho] at h
    simp [← h]
  | some s =>
    cases ha : p.annot with
    | none =>
      simp [processParam, ho, ha] at h
      simp [← h]
    | some ty =>
      cases hd : dynCast ty s with
      | none => simp [processParam, ho, ha, hd] at h
      | some v =>
        simp [processParam, ho, ha, hd] at h
        simp [← h]

theorem dynamicHandle_keys (params : List ParamInfo) (opts : String → Option String)
    (kw : List (String × Option PyValue)) (h : dynamicHandle params opts = .ok kw) :
    kw.map Prod.fst = params.map (fun p => p.name) := by
  induction params generalizing kw with
  | nil =>
    simp [dynamicHandle] at h
    simp [← h]
  | cons p ps ih =>
    cases h1 : processParam opts p with
    | error e => simp [dynamicHandle, h1] at h
    | ok kv =>
      cases h2 : dynamicHandle ps opts with
      | error e => simp [dynamicHandle, h1, h2] at h
      | ok rest =>
        simp [dynamicHandle, h1, h2] at h
        simp [← h, processParam_key opts p kv h1, ih rest h2]

/-! ## Claim theorems -/

/-- C2: casting with a boolean declared type is a case-insensitive match:
lowercase form in {"true","1","yes"} yields true, in {"false","0","no"}
yields false, anything else raises a cast error. -/
theorem c2_bool_cast_case_insensitive (v : String) :
    (pyLower v ∈ (["true", "1", "yes"] : List String) →
      castValueT PyType.bool v = .ok (.bool true)) ∧
    (pyLower v ∈ (["false", "0", "no"] : List String) →
      castValueT PyType.bool v = .ok (.bool false)) ∧
    (pyLower v ∉ (["true", "1", "yes"] : List String) →
      pyLower v ∉ (["false", "0", "no"] : List String) →
      castValueT PyType.bool v = .error (.castError v "bool")) := by
  refine ⟨fun h1 => ?_, fun h2 => ?_, fun h1 h2 => ?_⟩
  · simp [castValueT, h1]
  · have h1 : pyLower v ∉ (["true", "1", "yes"] : List String) := by
      simp only [List.mem_cons, List.mem_singleton] at h2
      rcases h2 with h | h | h | h <;> simp_all
    simp [castValueT, h1, h2]
  · simp [castValueT, h1, h2]

/-- C2 witness: concrete boolean casts, including mixed case. -/
theorem c2_witness :
    castValueT PyType.bool "TrUe" = .ok (.bool true) ∧
    castValueT PyType.bool "No" = .ok (.bool false) ∧
    castValueT PyType.bool "maybe" = .error (.castError "maybe" "bool") :=
  ⟨(c2_bool_cast_case_insensitive "TrUe").1 (by decide),
   (c2_bool_cast_case_insensitive "No").2.1 (by decide),
   (c2_bool_cast_case_insensitive "maybe").2.2 (by decide) (by decide)⟩

theorem castValueT_listOf (t : PyType) (v : String) :
    castValueT (PyType.listOf t) v =
      Except.map PyValue.list
        ((splitOnChar ',' v.data).mapM
          (fun i => castValueT t (String.mk (pyStrip i)))) := by
  simp only [castValueT]
  rw [castElems_eq_mapM]

theorem castValueT_int_of_parse (s : String) (n : Int) (h : pyIntParse s = some n) :
    castValueT PyType.int s = .ok (.int n) := by
  simp [castValueT, h]

/-- C3: casting with List[T] splits the raw string on ',', strips each
element, recursively casts each stripped element against T in order; in
particular "1, 2,3" against List[int] yields [1, 2, 3]. -/
theorem c3_list_cast (t : PyType) (v : String) :
    castValueT (PyType.listOf t) v =
      Except.map PyValue.list
        ((splitOnChar ',' v.data).mapM
          (fun i => castValueT t (String.mk (pyStrip i)))) ∧
    castValueT (PyType.listOf PyType.int) "1, 2,3" =
      .ok (.list [.int 1, .int 2, .int 3]) := by
  refine ⟨castValueT_listOf t v, ?_⟩
  rw [castValueT_listOf]
  have hs : splitOnChar ',' ("1, 2,3".data) = [['1'], [' ', '2'], ['3']] := by decide
  have c1 : castValueT PyType.int (String.mk (pyStrip ['1'])) = .ok (.int 1) :=
    castValueT_int_of_parse _ _ (by decide)
  have c2 : castValueT PyType.int (String.mk (pyStrip [' ', '2'])) = .ok (.int 2) :=
    castValueT_int_of_parse _ _ (by decide)
  have c3 : castValueT PyType.int (String.mk (pyStrip ['3'])) = .ok (.int 3) :=
    castValueT_int_of_parse _ _ (by decide)
  rw [hs, List.mapM_cons, List.mapM_cons, List.mapM_cons, List.mapM_nil, c1, c2, c3]
  rfl

/-- C4: integer casting returns the base-10 parse when the string is
parseable and raises a cast error otherwise; float casting likewise with the
decimal float parse; the error is a raised `.error`, never swallowed. -/
theorem c4_numeric_cast (s : String) :
    castValueT PyType.int s =
      (match pyIntParse s with
       | some n => .ok (.int n)
       | none => .error (.castError s "int")) ∧
    castValueT PyType.float s =
      (match pyFloatParse s with
       | some f => .ok (.float f)
       | none => .error (.castError s "float")) ∧
    castValueT PyType.int "42" = .ok (.int 42) ∧
    castValueT PyType.int "abc" = .error (.castError "abc" "int") ∧
    castValueT PyType.float "3.14" = .ok (.float (.finite (mkRat 157 50))) ∧
    castValueT PyType.float "x" = .error (.castError "x" "float") := by
  have e1 : pyIntParse "42" = some 42 := by decide
  have e2 : pyIntParse "abc" = none := by decide
  have e3 : pyFloatParse "3.14" = some (.finite (mkRat 157 50)) := by decide
  have e4 : pyFloatParse "x" = none := by decide
  refine ⟨by simp [castValueT], by simp [castValueT], ?_, ?_, ?_, ?_⟩
  · simp [castValueT, e1]
  · simp [castValueT, e2]
  · simp [castValueT, e3]
  · simp [castValueT, e4]

/-- C5: casting is the identity on the raw string when the declared type is
missing, is the string kind, or is outside the handled set (bare `list`
without an element type, or any unrecognized annotation); no error is
raised. -/
theorem c5_identity_fallback (v nm : String) :
    castValue none v = .ok (.str v) ∧
    castValueT PyType.str v = .ok (.str v) ∧
    castValueT (PyType.other nm) v = .ok (.str v) ∧
    castValueT PyType.bareList v = .ok (.str v) :=
  ⟨rfl, by simp [castValueT], by simp [castValueT], by simp [castValueT]⟩

/-- C6: a descriptor's `required` flag is true iff the parameter declares no
default; the descriptor default is the declared one (falsy included) or
`None` when absent; names and order are preserved. -/
theorem c6_required_iff_no_default (p : SigParam) (t : TaskObj) :
    ((parseParamInfo p).required = true ↔ p.default = none) ∧
    (parseParamInfo p).default = p.default.getD PyValue.pyNone ∧
    (parseParamInfo p).name = p.name ∧
    (parseParamInfo p).annot = p.hint ∧
    (parseTaskSignature t).params.map (fun q => q.name) =
      t.runParams.map (fun q => q.name) := by
  refine ⟨?_, rfl, rfl, rfl, ?_⟩
  · simp [parseParamInfo, Option.isNone_iff_eq_none]
  · simp [parseTaskSignature, parseParamInfo]

/-- C7: invoking the generic command with a task name absent from the
registry fails with the not-found error, and with the missing-run error when
the task object lacks a `run` entry point; in both cases no submission is
produced. -/
theorem c7_not_found_no_submission (registry : List (String × TaskObj))
    (name : String) (argsRaw kwargsRaw : List String) :
    (lookupAssoc registry name = none →
      runTask registry name argsRaw kwargsRaw = .error (.notFound name) ∧
      ∀ s, runTask registry name argsRaw kwargsRaw ≠ .ok s) ∧
    (∀ t, lookupAssoc registry name = some t → t.hasRun = false →
      runTask registry name argsRaw kwargsRaw = .error (.noRun name) ∧
      ∀ s, runTask registry name argsRaw kwargsRaw ≠ .ok s) := by
  constructor
  · intro h
    have he : runTask registry name argsRaw kwargsRaw = .error (.notFound name) := by
      simp [runTask, h]
    exact ⟨he, fun s => by simp [he]⟩
  · intro t h hr
    have he : runTask registry name argsRaw kwargsRaw = .error (.noRun name) := by
      simp [runTask, h, hr]
    exact ⟨he, fun s => by simp [he]⟩

/-- C7 witness: an empty registry rejects any name; a task without `.run` is
rejected after lookup. -/
theorem c7_witness :
    runTask [] "my_app.tasks.add" [] [] = .error (.notFound "my_app.tasks.add") ∧
    runTask [("t", ⟨"t", "t", false, [], ""⟩)] "t" [] [] = .error (.noRun "t") :=
  ⟨((c7_not_found_no_submission [] "my_app.tasks.add" [] []).1 rfl).1,
   ((c7_not_found_no_submission [("t", ⟨"t", "t", false, [], ""⟩)] "t" [] []).2
      ⟨"t", "t", false, [], ""⟩ rfl rfl).1⟩

/-- C8 counterexample: an invocation whose kwargs token "foo" contains no '='
does not always fail with the FormatError: when a positional argument fails
to cast first, the invocation fails with that cast error instead (positional
casting runs before the kwargs loop). -/
theorem c8_counterexample :
    splitFirst '=' ("foo".data) = none ∧
    runTask [("t", ⟨"t", "t", true, [⟨"a", some PyType.int, none⟩], ""⟩)]
        "t" ["xx"] ["foo"] = .error (.castError "xx" "int") ∧
    CmdError.castError "xx" "int" ≠ CmdError.badKwargs := by
  have hp : pyIntParse "xx" = none := by decide
  refine ⟨by decide, ?_, by decide⟩
  simp [runTask, lookupAssoc, castPositional, castValue, castValueT, hp]

/-- C8 amended: each well-formed keyword token is split exactly once on its
first '=' (the key contains no '='); a token without '=' makes the kwargs
loop raise the FormatError when it is reached, and guarantees the invocation
errors before any submission — though an earlier stage (lookup, missing run,
a positional cast, or an earlier keyword token's cast) may raise its own
error first. -/
theorem c8_amended_format_error :
    (∀ cs k v, splitFirst '=' cs = some (k, v) → cs = k ++ '=' :: v ∧ '=' ∉ k) ∧
    (∀ tok hints rest, splitFirst '=' tok.data = none →
      castKwargs hints (tok :: rest) = .error .badKwargs) ∧
    (∀ registry nm argsRaw kwargsRaw tok, tok ∈ kwargsRaw →
      splitFirst '=' tok.data = none →
      (∃ e, runTask registry nm argsRaw kwargsRaw = .error e) ∧
      ∀ s, runTask registry nm argsRaw kwargsRaw ≠ .ok s) := by
  refine ⟨fun cs k v h => splitFirst_spec '=' cs k v h,
    fun tok hints rest h => by simp [castKwargs, h],
    fun registry nm argsRaw kwargsRaw tok hmem hbad => ?_⟩
  have herr : ∃ e, runTask registry nm argsRaw kwargsRaw = .error e := by
    cases hl : lookupAssoc registry nm with
    | none => exact ⟨.notFound nm, by simp [runTask, hl]⟩
    | some task =>
      cases hr : task.hasRun with
      | false => exact ⟨.noRun nm, by simp [runTask, hl, hr]⟩
      | true =>
        cases hpos : castPositional task.runParams argsRaw with
        | error e => exact ⟨e, by simp [runTask, hl, hr, hpos]⟩
        | ok fargs =>
          obtain ⟨e, he⟩ :=
            castKwargs_error_of_missing_eq (typeHint task) kwargsRaw tok hmem hbad
          exact ⟨e, by simp [runTask, hl, hr, hpos, he]⟩
  obtain ⟨e, he⟩ := herr
  exact ⟨⟨e, he⟩, fun s => by simp [he]⟩

/-- C8 witness: the splitting fact at "a=b", the FormatError at token "foo",
and the no-submission guarantee on a concrete invocation. -/
theorem c8_witness :
    (("a=b".data) = ['a'] ++ '=' :: ['b'] ∧ '=' ∉ (['a'] : List Char)) ∧
    castKwargs (fun _ => none) ["foo"] = .error .badKwargs ∧
    ∀ s, runTask [] "t" [] ["foo"] ≠ .ok s :=
  ⟨c8_amended_format_error.1 ("a=b".data) ['a'] ['b'] (by decide),
   c8_amended_format_error.2.1 "foo" (fun _ => none) [] (by decide),
   (c8_amended_format_error.2.2 [] "t" [] ["foo"] "foo" (by decide) (by decide)).2⟩

/-- C9 counterexample: a discovered task with dotted name "my_app.tasks.add"
is registered under the key "add" — the slugified function name — not under
"my_app_tasks_add", the slugified dotted job name; moreover the slugifier
collapses a whole run of non-word characters into a single underscore
("a..b" becomes "a_b", not "a__b"). -/
theorem c9_counterexample :
    readyRegister [("my_app.tasks.add", ⟨"my_app.tasks.add", "add", true, [], ""⟩)] =
      [("add", "my_app.tasks.add")] ∧
    slugifyCommandName "my_app.tasks.add" = "my_app_tasks_add" ∧
    lookupAssoc
      (readyRegister [("my_app.tasks.add", ⟨"my_app.tasks.add", "add", true, [], ""⟩)])
      "my_app_tasks_add" = none ∧
    slugifyCommandName "a..b" = "a_b" := by
  refine ⟨by decide, by decide, by decide, by decide⟩

/-- C9 amended: registering a discovered job's dynamic command inserts
exactly one entry keyed by the slugified function name (`func_name`, the last
component of the dotted path), where slugification replaces each maximal run
of non-word characters with a single underscore; other keys are untouched,
and a later registration with a colliding key silently overwrites the earlier
entry. -/
theorem c9_amended_registry_key (reg : List (String × String)) (c t t0 k : String) :
    lookupAssoc (registerCommand reg c t) (slugifyCommandName c) = some t ∧
    (k ≠ slugifyCommandName c →
      lookupAssoc (registerCommand reg c t) k = lookupAssoc reg k) ∧
    (registerCommand reg c t).length =
      (if (lookupAssoc reg (slugifyCommandName c)).isSome then reg.length
       else reg.length + 1) ∧
    lookupAssoc (registerCommand (registerCommand reg c t0) c t)
      (slugifyCommandName c) = some t := by
  refine ⟨lookupAssoc_dictInsert_self _ _ _,
    fun h => lookupAssoc_dictInsert_other _ _ _ _ h,
    length_dictInsert _ _ _,
    lookupAssoc_dictInsert_self _ _ _⟩

/-- C9 witness: concrete registration behavior on a one-entry registry. -/
theorem c9_witness :
    lookupAssoc (registerCommand [("x", "1")] "add" "t2") (slugifyCommandName "add") =
      some "t2" ∧
    lookupAssoc (registerCommand [("x", "1")] "add" "t2") "x" =
      lookupAssoc [("x", "1")] "x" ∧
    (registerCommand [("x", "1")] "add" "t2").length = 2 ∧
    lookupAssoc (registerCommand (registerCommand [] "add" "t1") "add" "t2")
      (slugifyCommandName "add") = some "t2" := by
  obtain ⟨h1, h2, h3, h4⟩ := c9_amended_registry_key [("x", "1")] "add" "t2" "t1" "x"
  refine ⟨h1, h2 (by decide), ?_, ?_⟩
  · rw [h3]; decide
  · exact (c9_amended_registry_key [] "add" "t2" "t1" "x").2.2.2

/-- C1 counterexample: for a boolean-declared parameter the per-job command's
handle casts "false" with Python's `bool` constructor, yielding `True`
(nonempty-string truthiness), while the generic invoker's Argument Caster
maps the same string to `False` — the handle does not convert as the caster
would. -/
theorem c1_counterexample :
    processParam (fun _ => some "false")
        ⟨"b", some PyType.bool, PyValue.pyNone, true⟩ =
      .ok ("b", some (.bool true)) ∧
    castValueT PyType.bool "false" = .ok (.bool false) ∧
    PyValue.bool true ≠ PyValue.bool false := by
  refine ⟨rfl, ?_, by simp⟩
  simp [castValueT, pyLower, lowerChar]

/-- C1 amended: the dynamic handle applies the declared type's constructor to
the flag string: for integer-, float- and string-declared parameters this
produces exactly the Argument Caster's result (success values and failures
coincide), and a constructor failure surfaces as a user-facing error naming
the parameter, its raw value and the target type; but a boolean-declared
parameter is converted by truthiness — every nonempty string, "false"
included, maps to true and the empty string to false — and is never
rejected. -/
theorem c1_amended_dynamic_cast (s : String) :
    okValue (castValueT PyType.int s) = dynCast PyType.int s ∧
    okValue (castValueT PyType.float s) = dynCast PyType.float s ∧
    okValue (castValueT PyType.str s) = dynCast PyType.str s ∧
    dynCast PyType.bool s = some (.bool (!s.isEmpty)) ∧
    (∀ nm ty v, dynCast ty v = none →
      processParam (fun _ => some v) ⟨nm, some ty, PyValue.pyNone, true⟩ =
        .error (.dynCastError nm v (pyTypeName ty))) := by
  refine ⟨?_, ?_, by simp [castValueT, dynCast, okValue], rfl,
    fun nm ty v h => by simp [processParam, h]⟩
  · cases h : pyIntParse s <;> simp [castValueT, dynCast, okValue, h]
  · cases h : pyFloatParse s <;> simp [castValueT, dynCast, okValue, h]

/-- C1 witness: a List[int]-annotated parameter whose constructor call raises
is reported with parameter name, raw value and type; the int agreement at a
concrete string. -/
theorem c1_witness :
    processParam (fun _ => some "1,2")
        ⟨"xs", some (PyType.listOf PyType.int), PyValue.pyNone, true⟩ =
      .error (.dynCastError "xs" "1,2" "typing.List") ∧
    okValue (castValueT PyType.int "7") = dynCast PyType.int "7" :=
  ⟨(c1_amended_dynamic_cast "x").2.2.2.2 "xs" (PyType.listOf PyType.int) "1,2" rfl,
   (c1_amended_dynamic_cast "7").1⟩

/-- C10: in the per-job command, a parameter whose resolved flag value is
`None` is never cast (whatever its declared type) and contributes the entry
`None` to the keyword-argument mapping; on success the mapping has exactly
one entry per declared parameter, in declaration order, keyed by the
parameter names. -/
theorem c10_none_value_skips_cast (params : List ParamInfo)
    (opts : String → Option String) :
    (∀ p : ParamInfo, opts p.name = none →
      processParam opts p = .ok (p.name, none)) ∧
    (∀ kw, dynamicHandle params opts = .ok kw →
      kw.map Prod.fst = params.map (fun p => p.name)) := by
  refine ⟨fun p h => by simp [processParam, h], ?_⟩
  exact fun kw h => dynamicHandle_keys params opts kw h

/-- C10 witness: a bool-typed parameter with value `None` is passed through
un-cast, and a two-parameter handle produces exactly the two keys in order. -/
theorem c10_witness :
    processParam (fun _ => none) ⟨"flag", some PyType.bool, PyValue.pyNone, false⟩ =
      .ok ("flag", none) ∧
    [("a", (some (PyValue.int 1) : Option PyValue)), ("b", none)].map Prod.fst =
      ([⟨"a", some PyType.int, PyValue.pyNone, true⟩,
        ⟨"b", none, PyValue.pyNone, false⟩] : List ParamInfo).map (fun p => p.name) :=
  ⟨(c10_none_value_skips_cast [] (fun _ => none)).1
      ⟨"flag", some PyType.bool, PyValue.pyNone, false⟩ rfl,
   (c10_none_value_skips_cast
      [⟨"a", some PyType.int, PyValue.pyNone, true⟩,
       ⟨"b", none, PyValue.pyNone, false⟩]
      (fun nm => if nm = "a" then some "1" else none)).2
      [("a", some (PyValue.int 1)), ("b", none)] (by rfl)⟩

end DjCmd
